import Mathlib

/-!
Shallow embedding of the nsggp-game level runtime (src/game.js) and proofs
about it.  Coordinates, sizes and alpha values are modelled as rationals
(every operation the program performs on them — min, max, subtraction,
halving, clamping — is exact on IEEE doubles for the ranges involved, except
division by sqrt which we model over the reals in the player controller).
Colour channels are integers.  Code paths that throw a JavaScript
`TypeError` (property access on `undefined`) are modelled with `Except`.
-/

namespace Nsggp

/-- Mirrors `const clamp = (n, min, max) => n < min ? min : n > max ? max : n`. -/
def clamp {A : Type} [LinearOrder A] (n lo hi : A) : A :=
  if n < lo then lo else if n > hi then hi else n

/-- Mirrors `const min = (a, b) => b < a ? b : a`. -/
def jsMin {A : Type} [LinearOrder A] (a b : A) : A :=
  if b < a then b else a

/-- Mirrors `const max = (a, b) => b > a ? b : a`. -/
def jsMax {A : Type} [LinearOrder A] (a b : A) : A :=
  if b > a then b else a

/-- Mirrors `colorCompose`: `c = clamp(blue); c += clamp(green) << 8;
`c += clamp(red) << 16` (shifts on values already clamped to [0,255] are
exact multiplications by 2^8 / 2^16). -/
def colorCompose (red green blue : ℤ) : ℤ :=
  clamp blue 0 255 + clamp green 0 255 * 2 ^ 8 + clamp red 0 255 * 2 ^ 16

/-! ### Player controller (`class Player`) -/

/-- Movement state of `Player`: four directional flags plus the two scalars
set in the constructor (`moveSpeed = 100`, `jumpForce = 150`). -/
structure PlayerState where
  moveUp : Bool := false
  moveRight : Bool := false
  moveDown : Bool := false
  moveLeft : Bool := false
  moveSpeed : ℝ := 100
  jumpForce : ℝ := 150

/-- The unnormalized direction vector accumulated by `Player.move`
(`y -= 1` on up, `x += 1` on right, `y += 1` on down, `x -= 1` on left). -/
def dirRaw (p : PlayerState) : ℝ × ℝ :=
  ((if p.moveRight then 1 else 0) - (if p.moveLeft then 1 else 0),
   (if p.moveDown then 1 else 0) - (if p.moveUp then 1 else 0))

/-- Mirrors `Math.sqrt(direction.x * direction.x + direction.y * direction.y)`. -/
noncomputable def rawLength (p : PlayerState) : ℝ :=
  Real.sqrt ((dirRaw p).1 * (dirRaw p).1 + (dirRaw p).2 * (dirRaw p).2)

/-- The division guard `if (length === 0) length = 1`. -/
noncomputable def guardedLength (p : PlayerState) : ℝ :=
  if rawLength p = 0 then 1 else rawLength p

/-- The normalized direction vector computed by `Player.move`:
`direction.x /= length; direction.y /= length` after the zero guard. -/
noncomputable def moveDirection (p : PlayerState) : ℝ × ℝ :=
  ((dirRaw p).1 / guardedLength p, (dirRaw p).2 / guardedLength p)

/-- Euclidean magnitude of a vector. -/
noncomputable def magnitude (v : ℝ × ℝ) : ℝ :=
  Real.sqrt (v.1 * v.1 + v.2 * v.2)

/-- The externally owned physics body: horizontal and vertical velocity and
the ground-contact flag `body.touching.down`. -/
structure Body where
  vx : ℝ := 0
  vy : ℝ := 0
  touchingDown : Bool := false

/-- Effect of `Player.move` on an available body:
`setVelocityX(direction.x * moveSpeed)` and, only when `direction.y < 0`
and the body touches the ground, `setVelocityY(jumpForce * -1)`. -/
noncomputable def moveBody (p : PlayerState) (b : Body) : Body :=
  if (moveDirection p).2 < 0 ∧ b.touchingDown then
    { b with vx := (moveDirection p).1 * p.moveSpeed, vy := p.jumpForce * (-1) }
  else
    { b with vx := (moveDirection p).1 * p.moveSpeed }

/-- Full `Player.move` with the surrounding `try { ... } catch (e) {}`: the owned
physics handle may have been torn down (modelled by `none`), in which case
`setVelocityX` throws, the exception is swallowed, and no state changes. -/
noncomputable def move (p : PlayerState) (handle : Option Body) : Option Body :=
  match handle with
  | none => none
  | some b => some (moveBody p b)

/-! ### Level description data model -/

/-- An element's or a rect's colour record (`{red, green, blue, alpha}`;
alpha is only consulted for rects). -/
structure Color where
  red : ℤ := 0
  green : ℤ := 0
  blue : ℤ := 0
  alpha : ℚ := 1
deriving DecidableEq, Repr

/-- One entry of `description.elements`, dispatched on its `type` tag. -/
inductive Element where
  | player (x y : ℚ) (spriteRef : String)
  | sprite (x y : ℚ) (spriteRef : String) (color : Color)
      (function : Option String) (id : Option String)
  | rect (x1 y1 x2 y2 : ℚ) (color : Color)
      (function : Option String) (levelIndex : Option String) (id : Option String)
  | unknown
deriving DecidableEq, Repr

/-- One entry of `description.interactions`. -/
structure Interaction where
  trigger : String
  target : String
  action : String
deriving DecidableEq, Repr

/-- The level description consumed by `LevelScene.create` (asset loading is
engine plumbing outside the interpreter core). -/
structure LevelDescription where
  elements : List Element := []
  interactions : List Interaction := []
deriving DecidableEq, Repr

/-- A live game object: position / extent, tint, alpha, the `active` flag,
`body.enable`, the `levelIndex` payload carried by doors, and the `id`
stamped on table-registered objects. -/
structure GameObject where
  x : ℚ := 0
  y : ℚ := 0
  w : ℚ := 0
  h : ℚ := 0
  tint : ℤ := 16777215
  alpha : ℚ := 1
  active : Bool := true
  bodyEnable : Bool := true
  levelIndex : Option String := none
  id : Option String := none
deriving DecidableEq, Repr

/-- State built by `LevelScene.create`: the store of live objects (a ref is
an index into `objects`, in creation order), the four collision groups (as
lists of refs), the two lookup tables, and the player ref. -/
structure LevelState where
  objects : List GameObject := []
  blocks : List Nat := []
  doors : List Nat := []
  ghosts : List Nat := []
  keys : List Nat := []
  objectTable : List (String × Nat × Element) := []
  interactionsTable : List (String × String × String) := []
  player : Option Nat := none
deriving DecidableEq, Repr

/-! ### Table and store primitives -/

/-- Insertion into a JavaScript object used as a map: assigning to an
existing key overwrites, a new key is appended. -/
def tblInsert {A : Type} (k : String) (v : A) (t : List (String × A)) :
    List (String × A) :=
  if t.any (fun p => p.1 == k) then
    t.map (fun p => if p.1 == k then (k, v) else p)
  else t ++ [(k, v)]

/-- Property lookup on a JavaScript object used as a map (`undefined`
becomes `none`). -/
def tblLookup {A : Type} (k : String) (t : List (String × A)) : Option A :=
  match t.find? (fun p => p.1 == k) with
  | none => none
  | some p => some p.2

/-- The keys of a table, in storage order. -/
def tblKeys {A : Type} (t : List (String × A)) : List String :=
  t.map Prod.fst

/-- Pointwise update of the object store at one ref. -/
def listUpdate {A : Type} (f : A → A) : Nat → List A → List A
  | _, [] => []
  | 0, a :: as => f a :: as
  | n + 1, a :: as => a :: listUpdate f n as

/-- Dereference a live-object handle. -/
def getObj (st : LevelState) (r : Nat) : Option GameObject :=
  st.objects.get? r

/-- Mutate the live object behind a ref (JavaScript objects are shared by
reference between the groups and the tables). -/
def updateObj (st : LevelState) (r : Nat) (f : GameObject → GameObject) :
    LevelState :=
  { st with objects := listUpdate f r st.objects }

/-- JavaScript truthiness of the optional `id` field (`undefined` and the
empty string are falsy). -/
def idTruthy : Option String → Bool
  | some s => !(s == "")
  | none => false

/-- The id a created object carries (`s.id = o.id` happens only inside
`if (o.id)`). -/
def liveId (id : Option String) : Option String :=
  if idTruthy id then id else none

/-- The `if (o.id) { objectTable[o.id] = {desc: o, obj: ...} }` step. -/
def addToTable (st : LevelState) (id : Option String) (ref : Nat)
    (e : Element) : LevelState :=
  match id with
  | some s =>
      if idTruthy (some s) then
        { st with objectTable := tblInsert s (ref, e) st.objectTable }
      else st
  | none => st

/-- Rect corner normalization (`xmin/ymin/xmax/ymax` and the rect record
`{x, y, w, h}` built from them). -/
def normRect (x1 y1 x2 y2 : ℚ) : ℚ × ℚ × ℚ × ℚ :=
  (jsMin x1 x2, jsMin y1 y2, jsMax x1 x2 - jsMin x1 x2, jsMax y1 y2 - jsMin y1 y2)

/-! ### The element pass (`description.elements.forEach`) -/

/-- Processing of one element record: the `switch (o.type)` body. -/
def processElement (st : LevelState) (e : Element) : LevelState :=
  match e with
  | Element.player x y _ =>
      { st with
        objects := st.objects ++ [{ x := x, y := y, tint := 43981 }],
        player := some st.objects.length }
  | Element.sprite x y _ color fn id =>
      let ref := st.objects.length
      let obj : GameObject :=
        { x := x, y := y,
          tint := colorCompose color.red color.green color.blue,
          id := liveId id }
      let st1 := { st with objects := st.objects ++ [obj] }
      let st2 :=
        if fn = some "key" then { st1 with keys := st1.keys ++ [ref] }
        else { st1 with ghosts := st1.ghosts ++ [ref] }
      addToTable st2 id ref e
  | Element.rect x1 y1 x2 y2 color fn lvl id =>
      let ref := st.objects.length
      let n := normRect x1 y1 x2 y2
      let obj : GameObject :=
        { x := n.1, y := n.2.1, w := n.2.2.1, h := n.2.2.2,
          tint := colorCompose color.red color.green color.blue,
          alpha := clamp color.alpha 0 1,
          id := liveId id }
      let st1 :=
        if fn = some "wall" then
          { st with objects := st.objects ++ [obj], blocks := st.blocks ++ [ref] }
        else if fn = some "door" then
          { st with
            objects := st.objects ++ [{ obj with levelIndex := lvl }],
            doors := st.doors ++ [ref] }
        else
          { st with objects := st.objects ++ [obj], ghosts := st.ghosts ++ [ref] }
      addToTable st1 id ref e
  | Element.unknown => st

/-! ### The interaction pass (`description.interactions.forEach`) -/

/-- Processing of one interaction rule: register it in the table, then for
`action == "enable"` immediately dim/deactivate the target.  Accessing
`target.obj` when the target id is missing from the object table throws a
`TypeError` (modelled as `Except.error`); for any other action the missing
target is never dereferenced. -/
def processInteraction (st : LevelState) (r : Interaction) :
    Except String LevelState :=
  if r.action = "enable" then
    match tblLookup r.target st.objectTable with
    | none => Except.error "TypeError: target is undefined"
    | some (ref, _) =>
        Except.ok (updateObj
          { st with
            interactionsTable :=
              tblInsert r.trigger (r.target, r.action) st.interactionsTable }
          ref (fun o =>
            { o with alpha := o.alpha / 2, active := false, bodyEnable := false }))
  else
    Except.ok
      { st with
        interactionsTable :=
          tblInsert r.trigger (r.target, r.action) st.interactionsTable }

/-- The final `ghosts.children.entries.forEach(o => o.body.enable = false)`. -/
def disableGhosts (st : LevelState) : LevelState :=
  { st with
    objects := st.ghosts.foldl
      (fun os r => listUpdate (fun o => { o with bodyEnable := false }) r os)
      st.objects }

/-- The whole of `LevelScene.create` restricted to the interpreter core: one
pass over `elements`, one pass over `interactions`, then ghost-physics
disabling.  An uncaught `TypeError` aborts level setup. -/
def interpretLevel (d : LevelDescription) : Except String LevelState :=
  match d.interactions.foldlM processInteraction (d.elements.foldl processElement {}) with
  | Except.error e => Except.error e
  | Except.ok st1 => Except.ok (disableGhosts st1)

/-! ### The player–key overlap callback -/

/-- Mirrors `key.destroy()`: the key object is removed from the `keys` physics
group (so the engine will not report further overlaps with it). -/
def destroyKey (st : LevelState) (r : Nat) : LevelState :=
  { st with keys := st.keys.filter (fun k => k ≠ r) }

/-- The authored alpha `target.desc.color.alpha` read back on enable.
Object-table entries are only ever created for sprite and rect elements, so
the remaining constructors are unreachable here. -/
def descColorAlpha : Element → ℚ
  | Element.sprite _ _ _ c _ _ => c.alpha
  | Element.rect _ _ _ _ c _ _ _ => c.alpha
  | _ => 1

/-- The player–keys overlap callback.  The engine invokes it only for live
members of the `keys` group (a destroyed key is gone from the group), hence
the membership guard.  Inside, `interactionsTable[key.id]` being undefined
makes `interaction.target` throw; the key is destroyed before the action
switch; a missing target throws on `target.obj` in the `enable` and
`disable` arms and is never dereferenced otherwise. -/
def keyOverlap (st : LevelState) (r : Nat) : Except String LevelState :=
  if r ∈ st.keys then
    match getObj st r with
    | none => Except.ok st
    | some key =>
        match key.id.bind (fun kid => tblLookup kid st.interactionsTable) with
        | none => Except.error "TypeError: interaction is undefined"
        | some (targetId, action) =>
            if action = "enable" then
              match tblLookup targetId st.objectTable with
              | none => Except.error "TypeError: target is undefined"
              | some (tref, tdesc) =>
                  Except.ok (updateObj (destroyKey st r) tref (fun o =>
                    { o with alpha := descColorAlpha tdesc,
                             active := true, bodyEnable := true }))
            else if action = "disable" then
              match tblLookup targetId st.objectTable with
              | none => Except.error "TypeError: target is undefined"
              | some (tref, _) =>
                  Except.ok (updateObj (destroyKey st r) tref (fun o =>
                    { o with alpha := o.alpha / 2,
                             active := false, bodyEnable := false }))
            else Except.ok (destroyKey st r)
  else Except.ok st

/-- The id under which an element would be registered in the object table
(`none` for elements without a truthy id and for non-sprite/rect elements). -/
def elementId : Element → Option String
  | Element.sprite _ _ _ _ _ i => liveId i
  | Element.rect _ _ _ _ _ _ _ i => liveId i
  | _ => none

/-! ### Concrete levels used in scenario claims -/

/-- A key sprite's authored colour. -/
def keyColor : Color := { red := 100, green := 100, blue := 100 }

/-- The door rect's authored colour with authored alpha `a`. -/
def doorColor (a : ℚ) : Color := { red := 200, green := 50, blue := 50, alpha := a }

/-- A key sprite `k1` plus a door rect `door1` with authored alpha `a`, wired
by the interaction `{trigger: "k1", target: "door1", action: "enable"}`. -/
def exLevel (a : ℚ) : LevelDescription :=
  { elements :=
      [ Element.sprite 10 10 "img" keyColor (some "key") (some "k1"),
        Element.rect 20 20 40 60 (doorColor a) (some "door") (some "2") (some "door1") ],
    interactions := [ { trigger := "k1", target := "door1", action := "enable" } ] }

/-- The state `interpretLevel (exLevel a)` produces. -/
def exStart (a : ℚ) : LevelState :=
  { objects :=
      [ { x := 10, y := 10, tint := 6579300, id := some "k1" },
        { x := 20, y := 20, w := 20, h := 40, tint := 13120050,
          alpha := clamp a 0 1 / 2, active := false, bodyEnable := false,
          levelIndex := some "2", id := some "door1" } ],
    doors := [1], keys := [0],
    objectTable :=
      [ ("k1", 0, Element.sprite 10 10 "img" keyColor (some "key") (some "k1")),
        ("door1", 1,
          Element.rect 20 20 40 60 (doorColor a) (some "door") (some "2") (some "door1")) ],
    interactionsTable := [("k1", "door1", "enable")] }

/-- The state after the player–k1 overlap fires on `exStart a`. -/
def exAfter (a : ℚ) : LevelState :=
  { objects :=
      [ { x := 10, y := 10, tint := 6579300, id := some "k1" },
        { x := 20, y := 20, w := 20, h := 40, tint := 13120050,
          alpha := a, active := true, bodyEnable := true,
          levelIndex := some "2", id := some "door1" } ],
    doors := [1], keys := [],
    objectTable :=
      [ ("k1", 0, Element.sprite 10 10 "img" keyColor (some "key") (some "k1")),
        ("door1", 1,
          Element.rect 20 20 40 60 (doorColor a) (some "door") (some "2") (some "door1")) ],
    interactionsTable := [("k1", "door1", "enable")] }

/-- A single wall rect given by corners (50,50) and (10,30). -/
def wallLevel : LevelDescription :=
  { elements :=
      [ Element.rect 50 50 10 30 { red := 0, green := 0, blue := 0, alpha := 1 }
          (some "wall") none none ] }

/-- Two sprites sharing the id "a". -/
def dupIdLevel : LevelDescription :=
  { elements :=
      [ Element.sprite 0 0 "i" {} none (some "a"),
        Element.sprite 1 1 "i" {} none (some "a") ] }

/-- A wall rect plus an interaction rule whose target id "nope" matches no
object, with action "disable". -/
def missingTargetLevel : LevelDescription :=
  { elements :=
      [ Element.rect 0 0 5 5 {} (some "wall") none (some "r1") ],
    interactions := [ { trigger := "t1", target := "nope", action := "disable" } ] }

/-! ### Helper lemmas -/

theorem clamp_eq_self {A : Type} [LinearOrder A] {n lo hi : A}
    (h0 : lo ≤ n) (h1 : n ≤ hi) : clamp n lo hi = n := by
  unfold clamp
  rw [if_neg (not_lt.mpr h0), if_neg (not_lt.mpr h1)]

theorem le_clamp {A : Type} [LinearOrder A] {n : A} (lo hi : A) (h : lo ≤ hi) :
    lo ≤ clamp n lo hi := by
  unfold clamp
  split_ifs with h1 h2
  · exact le_refl lo
  · exact h
  · exact not_lt.mp h1

theorem clamp_le {A : Type} [LinearOrder A] {n : A} (lo hi : A) (h : lo ≤ hi) :
    clamp n lo hi ≤ hi := by
  unfold clamp
  split_ifs with h1 h2
  · exact h
  · exact le_refl hi
  · exact not_lt.mp h2

theorem jsMin_eq_min {A : Type} [LinearOrder A] (a b : A) :
    jsMin a b = Min.min a b := by
  unfold jsMin
  split_ifs with h
  · exact (min_eq_right h.le).symm
  · exact (min_eq_left (not_lt.mp h)).symm

theorem jsMax_eq_max {A : Type} [LinearOrder A] (a b : A) :
    jsMax a b = Max.max a b := by
  unfold jsMax
  split_ifs with h
  · exact (max_eq_right h.le).symm
  · exact (max_eq_left (not_lt.mp h)).symm

theorem get?_append_length {A : Type} (l : List A) (x : A) :
    (l ++ [x]).get? l.length = some x := by
  induction l with
  | nil => rfl
  | cons a as ih => exact ih

@[simp] theorem foldlM_nil {A B : Type} (f : B → A → Except String B) (b : B) :
    List.foldlM f b ([] : List A) = Except.ok b := rfl

@[simp] theorem except_pure {B : Type} (b : B) :
    (pure b : Except String B) = Except.ok b := rfl

@[simp] theorem except_bind_ok {B C : Type} (b : B) (f : B → Except String C) :
    (Except.ok b >>= f) = f b := rfl

@[simp] theorem except_bind_error {B C : Type} (e : String)
    (f : B → Except String C) : ((Except.error e : Except String B) >>= f) = Except.error e := rfl

@[simp] theorem except_toOption_ok {B : Type} (b : B) :
    (Except.ok b : Except String B).toOption = some b := rfl

theorem addToTable_objects (st : LevelState) (id : Option String) (ref : Nat)
    (e : Element) : (addToTable st id ref e).objects = st.objects := by
  cases id with
  | none => rfl
  | some s =>
      simp only [addToTable]
      split_ifs <;> rfl

theorem exLevel_interp (a : ℚ) :
    interpretLevel (exLevel a) = Except.ok (exStart a) := by
  simp [interpretLevel, exLevel, exStart, processElement, processInteraction,
    disableGhosts, addToTable, tblInsert, tblLookup, updateObj, listUpdate,
    normRect, jsMin, jsMax, idTruthy, liveId, keyColor, doorColor, colorCompose,
    clamp]
  norm_num

theorem exStart_overlap (a : ℚ) :
    keyOverlap (exStart a) 0 = Except.ok (exAfter a) := rfl

theorem wallLevel_rect :
    ((interpretLevel wallLevel).toOption.bind
      (fun st => (getObj st 0).map (fun o => (o.x, o.y, o.w, o.h)))) =
        some (10, 30, 40, 20) := by
  simp [interpretLevel, wallLevel, processElement, addToTable, disableGhosts,
    getObj, normRect, jsMin, jsMax, clamp, liveId, idTruthy, listUpdate]
  norm_num

theorem wallLevel_blocks :
    (interpretLevel wallLevel).toOption.map LevelState.blocks = some [0] := rfl

/-! ### Claim theorems -/

/-- C1: for a level with a key sprite `k1` and an `enable` interaction
targeting `door1` of authored alpha `a`: after interpretation `door1` has
alpha `a/2`, is inactive and has its body disabled; after the player–k1
overlap `door1` has its authored alpha `a` back (read from its description),
is active, has its body enabled, and `k1` is destroyed. -/
theorem claim1_key_unlock_scenario (a : ℚ) (h0 : 0 ≤ a) (h1 : a ≤ 1) :
    interpretLevel (exLevel a) = Except.ok (exStart a) ∧
    (getObj (exStart a) 1).map (fun o => (o.alpha, o.active, o.bodyEnable)) =
      some (a / 2, false, false) ∧
    keyOverlap (exStart a) 0 = Except.ok (exAfter a) ∧
    (getObj (exAfter a) 1).map (fun o => (o.alpha, o.active, o.bodyEnable)) =
      some (a, true, true) ∧
    (exStart a).keys = [0] ∧ (exAfter a).keys = [] := by
  have hc : clamp a 0 1 = a := clamp_eq_self h0 h1
  exact ⟨exLevel_interp a, by simp [exStart, getObj, hc], exStart_overlap a,
    by simp [exAfter, getObj], rfl, rfl⟩

theorem claim1_witness :
    interpretLevel (exLevel (4/5)) = Except.ok (exStart (4/5)) ∧
    (getObj (exStart (4/5)) 1).map (fun o => (o.alpha, o.active, o.bodyEnable)) =
      some ((4:ℚ)/5 / 2, false, false) ∧
    keyOverlap (exStart (4/5)) 0 = Except.ok (exAfter (4/5)) ∧
    (getObj (exAfter (4/5)) 1).map (fun o => (o.alpha, o.active, o.bodyEnable)) =
      some ((4:ℚ)/5, true, true) ∧
    (exStart ((4:ℚ)/5)).keys = [0] ∧ (exAfter ((4:ℚ)/5)).keys = [] :=
  claim1_key_unlock_scenario (4/5) (by norm_num) (by norm_num)

/-- C2 counterexample: the object table is a JavaScript object, so a second
element with an already-used id overwrites the first entry: a level with two
id-bearing elements yields an object table with one entry, not two. -/
theorem claim2_counterexample :
    (dupIdLevel.elements.filter (fun e => (elementId e).isSome)).length = 2 ∧
    (interpretLevel dupIdLevel).toOption.map (fun st => st.objectTable.length) =
      some 1 :=
  ⟨rfl, rfl⟩

/-- C3: the code does NOT treat a missing interaction target as fatal for
every action value: with `action = "disable"` the rule is silently
registered, the target is never dereferenced, and level setup completes. -/
theorem claim3_missing_target_not_fatal :
    (interpretLevel missingTargetLevel).toOption.map LevelState.interactionsTable =
      some [("t1", "nope", "disable")] ∧
    ((interpretLevel missingTargetLevel).toOption.map
      (fun st => tblLookup "nope" st.objectTable)) = some none :=
  ⟨rfl, rfl⟩

/-- C4: rect corner points are normalized to componentwise min as origin and
max − min as size, so width and height are non-negative for either corner
order; the concrete wall rect with corners (50,50) and (10,30) yields
{x:10, y:30, w:40, h:20} and lands in the blocks group. -/
theorem claim4_rect_normalization :
    (∀ x1 y1 x2 y2 : ℚ,
      (normRect x1 y1 x2 y2).1 = Min.min x1 x2 ∧
      (normRect x1 y1 x2 y2).2.1 = Min.min y1 y2 ∧
      (normRect x1 y1 x2 y2).2.2.1 = Max.max x1 x2 - Min.min x1 x2 ∧
      (normRect x1 y1 x2 y2).2.2.2 = Max.max y1 y2 - Min.min y1 y2 ∧
      0 ≤ (normRect x1 y1 x2 y2).2.2.1 ∧
      0 ≤ (normRect x1 y1 x2 y2).2.2.2) ∧
    ((interpretLevel wallLevel).toOption.bind
      (fun st => (getObj st 0).map (fun o => (o.x, o.y, o.w, o.h)))) =
        some (10, 30, 40, 20) ∧
    (interpretLevel wallLevel).toOption.map LevelState.blocks = some [0] := by
  refine ⟨?_, ?_, ?_⟩
  · intro x1 y1 x2 y2
    refine ⟨?_, ?_, ?_, ?_, ?_, ?_⟩ <;>
      simp [normRect, jsMin_eq_min, jsMax_eq_max, sub_nonneg, min_le_max]
  · exact wallLevel_rect
  · exact wallLevel_blocks

/-- C7: every channel of the packed colour is clamped to [0,255] before the
bit-shifted composition `blue + green·2^8 + red·2^16`; a rect's alpha is
clamped to [0,1] on creation; and `colorCompose 300 (-10) 128` packs
red 255, green 0, blue 128. -/
theorem claim7_color_clamping :
    (∀ red green blue : ℤ,
      colorCompose red green blue =
        clamp blue 0 255 + clamp green 0 255 * 2 ^ 8 + clamp red 0 255 * 2 ^ 16 ∧
      (0 ≤ clamp red 0 255 ∧ clamp red 0 255 ≤ 255) ∧
      (0 ≤ clamp green 0 255 ∧ clamp green 0 255 ≤ 255) ∧
      (0 ≤ clamp blue 0 255 ∧ clamp blue 0 255 ≤ 255)) ∧
    (∀ (st : LevelState) (x1 y1 x2 y2 : ℚ) (c : Color) (fn lvl id : Option String),
      ((processElement st (Element.rect x1 y1 x2 y2 c fn lvl id)).objects.get?
        st.objects.length).map GameObject.alpha = some (clamp c.alpha 0 1) ∧
      0 ≤ clamp c.alpha 0 1 ∧ clamp c.alpha 0 1 ≤ 1) ∧
    colorCompose 300 (-10) 128 = 255 * 2 ^ 16 + 0 * 2 ^ 8 + 128 := by
  have hb : (0:ℤ) ≤ 255 := by norm_num
  have ha : (0:ℚ) ≤ 1 := by norm_num
  refine ⟨?_, ?_, by decide⟩
  · intro red green blue
    exact ⟨rfl, ⟨le_clamp 0 255 hb, clamp_le 0 255 hb⟩,
      ⟨le_clamp 0 255 hb, clamp_le 0 255 hb⟩,
      ⟨le_clamp 0 255 hb, clamp_le 0 255 hb⟩⟩
  · intro st x1 y1 x2 y2 c fn lvl id
    refine ⟨?_, le_clamp 0 1 ha, clamp_le 0 1 ha⟩
    show ((processElement st (Element.rect x1 y1 x2 y2 c fn lvl id)).objects.get?
      st.objects.length).map GameObject.alpha = some (clamp c.alpha 0 1)
    simp only [processElement]
    split_ifs <;>
      simp [addToTable_objects, get?_append_length]

/-! ### Table-size bookkeeping for the two interpreter passes -/

theorem tblKeys_insert_not_mem {A : Type} (k : String) (v : A)
    (t : List (String × A)) (h : k ∉ tblKeys t) :
    tblKeys (tblInsert k v t) = tblKeys t ++ [k] := by
  have hany : t.any (fun p => p.1 == k) = false := by
    rw [List.any_eq_false]
    intro p hp
    simp only [beq_iff_eq]
    intro hpk
    exact h (List.mem_map.mpr ⟨p, hp, hpk⟩)
  simp [tblInsert, hany, tblKeys]

theorem idTruthy_false_of_liveId_none {i : Option String}
    (h : liveId i = none) : idTruthy i = false := by
  by_cases ht : idTruthy i = true
  · exfalso
    cases i with
    | none => simp [idTruthy] at ht
    | some s => simp [liveId, ht] at h
  · simpa using ht

theorem liveId_some {i : Option String} {s : String} (h : liveId i = some s) :
    i = some s ∧ idTruthy (some s) = true := by
  by_cases ht : idTruthy i = true
  · unfold liveId at h
    rw [if_pos ht] at h
    exact ⟨h, h ▸ ht⟩
  · unfold liveId at h
    rw [if_neg ht] at h
    cases h

theorem addToTable_table_of_not (st : LevelState) (id : Option String)
    (ref : Nat) (e : Element) (h : idTruthy id = false) :
    (addToTable st id ref e).objectTable = st.objectTable := by
  cases id with
  | none => rfl
  | some s =>
      simp only [addToTable]
      rw [if_neg (by simp [h])]

theorem addToTable_table_of (st : LevelState) (s : String) (ref : Nat)
    (e : Element) (h : idTruthy (some s) = true) :
    (addToTable st (some s) ref e).objectTable =
      tblInsert s (ref, e) st.objectTable := by
  simp only [addToTable]
  rw [if_pos h]

theorem processElement_table_none (st : LevelState) (e : Element)
    (h : elementId e = none) :
    (processElement st e).objectTable = st.objectTable := by
  cases e with
  | player x y s => rfl
  | unknown => rfl
  | sprite x y sr c fn id =>
      have hid : idTruthy id = false := idTruthy_false_of_liveId_none h
      simp only [processElement]
      rw [addToTable_table_of_not _ _ _ _ hid]
      split_ifs <;> rfl
  | rect x1 y1 x2 y2 c fn lvl id =>
      have hid : idTruthy id = false := idTruthy_false_of_liveId_none h
      simp only [processElement]
      rw [addToTable_table_of_not _ _ _ _ hid]
      split_ifs <;> rfl

theorem processElement_table_some (st : LevelState) (e : Element) (i : String)
    (h : elementId e = some i) :
    (processElement st e).objectTable =
      tblInsert i (st.objects.length, e) st.objectTable := by
  cases e with
  | player x y s => cases h
  | unknown => cases h
  | sprite x y sr c fn id =>
      obtain ⟨hid, ht⟩ := liveId_some h
      subst hid
      simp only [processElement]
      rw [addToTable_table_of _ _ _ _ ht]
      split_ifs <;> rfl
  | rect x1 y1 x2 y2 c fn lvl id =>
      obtain ⟨hid, ht⟩ := liveId_some h
      subst hid
      simp only [processElement]
      rw [addToTable_table_of _ _ _ _ ht]
      split_ifs <;> rfl

theorem addToTable_itable (st : LevelState) (id : Option String) (ref : Nat)
    (e : Element) : (addToTable st id ref e).interactionsTable =
      st.interactionsTable := by
  cases id with
  | none => rfl
  | some s =>
      simp only [addToTable]
      split_ifs <;> rfl

theorem processElement_itable (st : LevelState) (e : Element) :
    (processElement st e).interactionsTable = st.interactionsTable := by
  cases e with
  | player x y s => rfl
  | unknown => rfl
  | sprite x y sr c fn id =>
      simp only [processElement]
      rw [addToTable_itable]
      split_ifs <;> rfl
  | rect x1 y1 x2 y2 c fn lvl id =>
      simp only [processElement]
      rw [addToTable_itable]
      split_ifs <;> rfl

theorem elements_pass_itable (es : List Element) :
    ∀ st : LevelState,
      (es.foldl processElement st).interactionsTable = st.interactionsTable := by
  induction es with
  | nil => intro st; rfl
  | cons e es ih =>
      intro st
      rw [List.foldl_cons, ih, processElement_itable]

theorem elements_pass_keys (es : List Element) :
    ∀ st : LevelState,
      (es.filterMap elementId).Nodup →
      (∀ i ∈ es.filterMap elementId, i ∉ tblKeys st.objectTable) →
      tblKeys (es.foldl processElement st).objectTable =
        tblKeys st.objectTable ++ es.filterMap elementId := by
  induction es with
  | nil => intro st _ _; simp
  | cons e es ih =>
      intro st hnd hdisj
      rw [List.foldl_cons]
      cases he : elementId e with
      | none =>
          rw [List.filterMap_cons_none he] at hnd hdisj ⊢
          have hk : tblKeys (processElement st e).objectTable =
              tblKeys st.objectTable := by
            rw [processElement_table_none st e he]
          rw [ih (processElement st e) hnd (by rw [hk]; exact hdisj), hk]
      | some i =>
          rw [List.filterMap_cons_some he] at hnd hdisj ⊢
          have hi : i ∉ tblKeys st.objectTable := hdisj i (List.mem_cons_self _ _)
          have hk : tblKeys (processElement st e).objectTable =
              tblKeys st.objectTable ++ [i] := by
            rw [processElement_table_some st e i he]
            exact tblKeys_insert_not_mem i _ _ hi
          have hnd' : (es.filterMap elementId).Nodup := hnd.of_cons
          have hdisj' : ∀ j ∈ es.filterMap elementId,
              j ∉ tblKeys (processElement st e).objectTable := by
            intro j hj
            rw [hk]
            intro hmem
            rcases List.mem_append.mp hmem with hkeys | hsing
            · exact hdisj j (List.mem_cons_of_mem i hj) hkeys
            · rw [List.mem_singleton] at hsing
              subst hsing
              exact (List.nodup_cons.mp hnd).1 hj
          rw [ih (processElement st e) hnd' hdisj', hk, List.append_assoc,
            List.singleton_append]

theorem processInteraction_tables (st : LevelState) (r : Interaction)
    (st' : LevelState) (h : processInteraction st r = Except.ok st') :
    st'.interactionsTable =
      tblInsert r.trigger (r.target, r.action) st.interactionsTable ∧
    st'.objectTable = st.objectTable := by
  unfold processInteraction at h
  split_ifs at h
  · cases htl : tblLookup r.target st.objectTable with
    | none =>
        rw [htl] at h
        cases h
    | some p =>
        obtain ⟨ref, e⟩ := p
        rw [htl] at h
        injection h with h
        subst h
        exact ⟨rfl, rfl⟩
  · injection h with h
    subst h
    exact ⟨rfl, rfl⟩

theorem interactions_pass (rs : List Interaction) :
    ∀ st st' : LevelState,
      rs.foldlM processInteraction st = Except.ok st' →
      (rs.map Interaction.trigger).Nodup →
      (∀ t ∈ rs.map Interaction.trigger, t ∉ tblKeys st.interactionsTable) →
      tblKeys st'.interactionsTable =
        tblKeys st.interactionsTable ++ rs.map Interaction.trigger ∧
      st'.objectTable = st.objectTable := by
  induction rs with
  | nil =>
      intro st st' h _ _
      rw [foldlM_nil] at h
      injection h with h
      subst h
      exact ⟨by simp, rfl⟩
  | cons r rs ih =>
      intro st st' h hnd hdisj
      rw [List.foldlM_cons] at h
      cases hr : processInteraction st r with
      | error e =>
          rw [hr] at h
          cases h
      | ok st1 =>
          rw [hr, except_bind_ok] at h
          obtain ⟨hti, hto⟩ := processInteraction_tables st r st1 hr
          rw [List.map_cons] at hnd hdisj
          have htr : r.trigger ∉ tblKeys st.interactionsTable :=
            hdisj r.trigger (List.mem_cons_self _ _)
          have hk1 : tblKeys st1.interactionsTable =
              tblKeys st.interactionsTable ++ [r.trigger] := by
            rw [hti]
            exact tblKeys_insert_not_mem _ _ _ htr
          have hnd' : (rs.map Interaction.trigger).Nodup := hnd.of_cons
          have hdisj' : ∀ t ∈ rs.map Interaction.trigger,
              t ∉ tblKeys st1.interactionsTable := by
            intro t htm
            rw [hk1]
            intro hmem
            rcases List.mem_append.mp hmem with hkeys | hsing
            · exact hdisj t (List.mem_cons_of_mem _ htm) hkeys
            · rw [List.mem_singleton] at hsing
              subst hsing
              exact (List.nodup_cons.mp hnd).1 htm
          obtain ⟨h1, h2⟩ := ih st1 st' h hnd' hdisj'
          refine ⟨?_, h2.trans hto⟩
          rw [h1, hk1, List.append_assoc, List.singleton_append, List.map_cons]

theorem disableGhosts_objectTable (st : LevelState) :
    (disableGhosts st).objectTable = st.objectTable := rfl

theorem disableGhosts_itable (st : LevelState) :
    (disableGhosts st).interactionsTable = st.interactionsTable := rfl

/-- C2 (amended): provided the truthy ids of the elements are pairwise
distinct and the interaction triggers are pairwise distinct, a successful
interpretation yields an object table with exactly one entry per id-bearing
element and an interaction table with exactly one entry per rule.  (Without
distinctness the JavaScript-object tables overwrite, see the
counterexample.) -/
theorem claim2_table_sizes (d : LevelDescription) (st : LevelState)
    (hids : (d.elements.filterMap elementId).Nodup)
    (htr : (d.interactions.map Interaction.trigger).Nodup)
    (h : interpretLevel d = Except.ok st) :
    st.objectTable.length = (d.elements.filterMap elementId).length ∧
    st.interactionsTable.length = d.interactions.length := by
  unfold interpretLevel at h
  cases hI : List.foldlM processInteraction (d.elements.foldl processElement {}) d.interactions with
  | error e =>
      rw [hI] at h
      cases h
  | ok st1 =>
      rw [hI] at h
      injection h with h
      subst h
      have hobj0 : tblKeys (d.elements.foldl processElement {}).objectTable =
          d.elements.filterMap elementId := by
        have := elements_pass_keys d.elements {} hids (by simp [tblKeys])
        simpa [tblKeys] using this
      have hit0 : (d.elements.foldl processElement {}).interactionsTable =
          ([] : List (String × String × String)) :=
        elements_pass_itable d.elements {}
      obtain ⟨h1, h2⟩ := interactions_pass d.interactions _ st1 hI htr
        (by rw [hit0]; intro t _; simp [tblKeys])
      constructor
      · have : tblKeys st1.objectTable = d.elements.filterMap elementId := by
          rw [h2, hobj0]
        calc (disableGhosts st1).objectTable.length
            = (tblKeys st1.objectTable).length := by
              rw [disableGhosts_objectTable, tblKeys, List.length_map]
          _ = (d.elements.filterMap elementId).length := by rw [this]
      · calc (disableGhosts st1).interactionsTable.length
            = (tblKeys st1.interactionsTable).length := by
              rw [disableGhosts_itable, tblKeys, List.length_map]
          _ = (d.interactions.map Interaction.trigger).length := by
              rw [h1, hit0]
              simp [tblKeys]
          _ = d.interactions.length := List.length_map _ _

theorem claim2_witness :
    (exStart ((4:ℚ)/5)).objectTable.length =
      ((exLevel ((4:ℚ)/5)).elements.filterMap elementId).length ∧
    (exStart ((4:ℚ)/5)).interactionsTable.length =
      (exLevel ((4:ℚ)/5)).interactions.length :=
  claim2_table_sizes (exLevel (4/5)) (exStart (4/5))
    (by decide) (by decide) (exLevel_interp (4/5))

/-! ### Ghost-group invariants -/

theorem addToTable_ghosts (st : LevelState) (id : Option String) (ref : Nat)
    (e : Element) : (addToTable st id ref e).ghosts = st.ghosts := by
  cases id with
  | none => rfl
  | some s =>
      simp only [addToTable]
      split_ifs <;> rfl

theorem disableGhosts_ghosts (st : LevelState) :
    (disableGhosts st).ghosts = st.ghosts := rfl

theorem listUpdate_get? {A : Type} (f : A → A) (n m : Nat) (l : List A) :
    (listUpdate f n l).get? m = if m = n then (l.get? m).map f else l.get? m := by
  induction l generalizing n m with
  | nil => cases n <;> cases m <;> simp [listUpdate]
  | cons a as ih =>
      cases n with
      | zero =>
          cases m with
          | zero => simp [listUpdate]
          | succ m => simp [listUpdate]
      | succ n =>
          cases m with
          | zero => simp [listUpdate]
          | succ m => simpa [listUpdate] using ih n m

/-- After folding the ghost-disable update over a list of refs, every ref in
the list (and every position already disabled) holds a disabled body. -/
theorem dis_fold (rs : List Nat) :
    ∀ (os : List GameObject) (r : Nat),
      (r ∈ rs ∨ ∀ o, os.get? r = some o → o.bodyEnable = false) →
      ∀ o,
        ((rs.foldl
          (fun os' k => listUpdate (fun o => { o with bodyEnable := false }) k os')
          os).get? r = some o) →
        o.bodyEnable = false := by
  induction rs with
  | nil =>
      intro os r h o hget
      rcases h with h | h
      · cases h
      · exact h o hget
  | cons k rs ih =>
      intro os r h o
      rw [List.foldl_cons]
      apply ih
      rcases h with hmem | hP
      · rcases List.mem_cons.mp hmem with heq | hmem'
        · right
          intro o' hget
          rw [listUpdate_get?] at hget
          rw [if_pos heq] at hget
          rcases Option.map_eq_some'.mp hget with ⟨o0, _, ho⟩
          rw [← ho]
        · left
          exact hmem'
      · right
        intro o' hget
        rw [listUpdate_get?] at hget
        by_cases hrk : r = k
        · rw [if_pos hrk] at hget
          rcases Option.map_eq_some'.mp hget with ⟨o0, _, ho⟩
          rw [← ho]
        · rw [if_neg hrk] at hget
          exact hP o' hget

/-- C9: sprites whose function tag is not "key" and rects whose function tag
is neither "wall" nor "door" (including absent tags) are assigned to the
ghosts group, and after interpretation every object in the ghosts group has
its collision body disabled. -/
theorem claim9_ghost_assignment :
    (∀ (st : LevelState) (x y : ℚ) (sr : String) (c : Color) (fn i : Option String),
      fn ≠ some "key" →
      (processElement st (Element.sprite x y sr c fn i)).ghosts =
        st.ghosts ++ [st.objects.length]) ∧
    (∀ (st : LevelState) (x1 y1 x2 y2 : ℚ) (c : Color) (fn lvl i : Option String),
      fn ≠ some "wall" → fn ≠ some "door" →
      (processElement st (Element.rect x1 y1 x2 y2 c fn lvl i)).ghosts =
        st.ghosts ++ [st.objects.length]) ∧
    (∀ (d : LevelDescription) (st : LevelState), interpretLevel d = Except.ok st →
      ∀ r ∈ st.ghosts, ∀ o, getObj st r = some o → o.bodyEnable = false) := by
  refine ⟨?_, ?_, ?_⟩
  · intro st x y sr c fn i hfn
    simp only [processElement]
    rw [addToTable_ghosts, if_neg hfn]
  · intro st x1 y1 x2 y2 c fn lvl i hw hd
    simp only [processElement]
    rw [addToTable_ghosts, if_neg hw, if_neg hd]
  · intro d st h r hr o hget
    unfold interpretLevel at h
    cases hI : List.foldlM processInteraction
        (d.elements.foldl processElement {}) d.interactions with
    | error e =>
        rw [hI] at h
        cases h
    | ok st1 =>
        rw [hI] at h
        injection h with h
        subst h
        rw [disableGhosts_ghosts] at hr
        exact dis_fold st1.ghosts st1.objects r (Or.inl hr) o hget

/-- A single decorative sprite (no function tag). -/
def ghostLevel : LevelDescription :=
  { elements := [Element.sprite 3 4 "g" {} none none] }

/-- The state `interpretLevel ghostLevel` produces. -/
def ghostSt : LevelState :=
  { objects := [{ x := 3, y := 4, tint := 0, bodyEnable := false }],
    ghosts := [0] }

theorem claim9_witness :
    (processElement {} (Element.sprite 0 0 "s" {} none none)).ghosts =
      ([] : List Nat) ++ [0] ∧
    (processElement {} (Element.rect 0 0 1 1 {} none none none)).ghosts =
      ([] : List Nat) ++ [0] ∧
    ({ x := 3, y := 4, tint := 0, bodyEnable := false } : GameObject).bodyEnable
      = false :=
  ⟨claim9_ghost_assignment.1 {} 0 0 "s" {} none none (by decide),
   claim9_ghost_assignment.2.1 {} 0 0 1 1 {} none none none (by decide) (by decide),
   claim9_ghost_assignment.2.2 ghostLevel ghostSt rfl 0 (by decide)
     { x := 3, y := 4, tint := 0, bodyEnable := false } rfl⟩

/-! ### One-shot key consumption -/

theorem not_mem_destroyKey (st : LevelState) (r : Nat) :
    r ∉ (destroyKey st r).keys := by
  simp [destroyKey, List.mem_filter]

theorem updateObj_keys (st : LevelState) (r : Nat) (f : GameObject → GameObject) :
    (updateObj st r f).keys = st.keys := rfl

/-- C6: a dispatched key-overlap removes the key from the keys group, and a
second overlap event for the same key is a no-op (the engine only raises
overlaps for live members of the keys group, and the key is gone). -/
theorem claim6_one_shot (st : LevelState) (r : Nat) (st' : LevelState)
    (h : keyOverlap st r = Except.ok st') :
    keyOverlap st' r = Except.ok st' ∧
    (r ∈ st.keys → getObj st r ≠ none → r ∉ st'.keys) := by
  by_cases hmem : r ∈ st.keys
  · unfold keyOverlap at h
    rw [if_pos hmem] at h
    split at h
    next hg =>
      injection h with h
      subst h
      constructor
      · unfold keyOverlap
        rw [if_pos hmem, hg]
      · intro _ hne
        exact absurd hg hne
    next key hg =>
      split at h
      next hint => cases h
      next tid act hint =>
        split_ifs at h with hen hdis
        · split at h
          next htl => cases h
          next tref tdesc htl =>
            injection h with h
            subst h
            have hnot : r ∉ (updateObj (destroyKey st r) tref (fun o =>
                { o with alpha := descColorAlpha tdesc,
                         active := true, bodyEnable := true })).keys := by
              rw [updateObj_keys]
              exact not_mem_destroyKey st r
            refine ⟨?_, fun _ _ => hnot⟩
            unfold keyOverlap
            rw [if_neg hnot]
        · split at h
          next htl => cases h
          next tref tdesc htl =>
            injection h with h
            subst h
            have hnot : r ∉ (updateObj (destroyKey st r) tref (fun o =>
                { o with alpha := o.alpha / 2,
                         active := false, bodyEnable := false })).keys := by
              rw [updateObj_keys]
              exact not_mem_destroyKey st r
            refine ⟨?_, fun _ _ => hnot⟩
            unfold keyOverlap
            rw [if_neg hnot]
        · injection h with h
          subst h
          have hnot : r ∉ (destroyKey st r).keys := not_mem_destroyKey st r
          refine ⟨?_, fun _ _ => hnot⟩
          unfold keyOverlap
          rw [if_neg hnot]
  · unfold keyOverlap at h
    rw [if_neg hmem] at h
    injection h with h
    subst h
    refine ⟨?_, fun hm _ => absurd hm hmem⟩
    unfold keyOverlap
    rw [if_neg hmem]

theorem claim6_witness :
    keyOverlap (exAfter (4/5)) 0 = Except.ok (exAfter (4/5)) ∧
    (0 ∈ (exStart ((4:ℚ)/5)).keys → getObj (exStart (4/5)) 0 ≠ none →
      0 ∉ (exAfter ((4:ℚ)/5)).keys) :=
  claim6_one_shot (exStart (4/5)) 0 (exAfter (4/5)) (exStart_overlap (4/5))

/-! ### Player direction normalization -/

theorem norm_sum_sq (x y : ℝ) (h : x * x + y * y ≠ 0) :
    Real.sqrt ((x / Real.sqrt (x * x + y * y)) * (x / Real.sqrt (x * x + y * y)) +
      (y / Real.sqrt (x * x + y * y)) * (y / Real.sqrt (x * x + y * y))) = 1 := by
  have hs : 0 < x * x + y * y :=
    lt_of_le_of_ne (add_nonneg (mul_self_nonneg x) (mul_self_nonneg y)) (Ne.symm h)
  have key : (x / Real.sqrt (x * x + y * y)) * (x / Real.sqrt (x * x + y * y)) +
      (y / Real.sqrt (x * x + y * y)) * (y / Real.sqrt (x * x + y * y)) = 1 := by
    rw [div_mul_div_comm, div_mul_div_comm, div_add_div_same,
      Real.mul_self_sqrt hs.le]
    exact div_self h
  rw [key, Real.sqrt_one]

theorem mag_zero (p : PlayerState) (hx : (dirRaw p).1 = 0)
    (hy : (dirRaw p).2 = 0) :
    moveDirection p = (0, 0) ∧ magnitude (moveDirection p) = 0 ∧
    guardedLength p ≠ 0 := by
  have hr : rawLength p = 0 := by
    unfold rawLength
    rw [hx, hy]
    norm_num [Real.sqrt_zero]
  have hg : guardedLength p = 1 := by
    unfold guardedLength
    rw [hr, if_pos rfl]
  have hdir : moveDirection p = (0, 0) := by
    unfold moveDirection
    rw [hx, hy, hg]
    norm_num
  refine ⟨hdir, ?_, by rw [hg]; norm_num⟩
  rw [hdir]
  unfold magnitude
  norm_num [Real.sqrt_zero]

theorem mag_one (p : PlayerState)
    (h : (dirRaw p).1 * (dirRaw p).1 + (dirRaw p).2 * (dirRaw p).2 ≠ 0) :
    magnitude (moveDirection p) = 1 ∧ guardedLength p ≠ 0 := by
  have hs : 0 < (dirRaw p).1 * (dirRaw p).1 + (dirRaw p).2 * (dirRaw p).2 :=
    lt_of_le_of_ne
      (add_nonneg (mul_self_nonneg (dirRaw p).1) (mul_self_nonneg (dirRaw p).2))
      (Ne.symm h)
  have hrpos : 0 < rawLength p := by
    unfold rawLength
    exact Real.sqrt_pos.mpr hs
  constructor
  · unfold magnitude moveDirection guardedLength
    rw [if_neg (ne_of_gt hrpos)]
    unfold rawLength
    exact norm_sum_sq _ _ h
  · unfold guardedLength
    rw [if_neg (ne_of_gt hrpos)]
    exact ne_of_gt hrpos

theorem claim5_case_zero (p : PlayerState)
    (hx : (dirRaw p).1 = 0) (hy : (dirRaw p).2 = 0)
    (hc : p.moveUp = p.moveDown ∧ p.moveRight = p.moveLeft) :
    magnitude (moveDirection p) ≤ 1 ∧
    ((p.moveUp = p.moveDown ∧ p.moveRight = p.moveLeft) →
      moveDirection p = (0, 0) ∧ magnitude (moveDirection p) = 0) ∧
    (¬(p.moveUp = p.moveDown ∧ p.moveRight = p.moveLeft) →
      magnitude (moveDirection p) = 1) ∧
    guardedLength p ≠ 0 := by
  obtain ⟨hdir, hmag, hg⟩ := mag_zero p hx hy
  exact ⟨by rw [hmag]; norm_num, fun _ => ⟨hdir, hmag⟩,
    fun hnc => absurd hc hnc, hg⟩

theorem claim5_case_one (p : PlayerState)
    (h : (dirRaw p).1 * (dirRaw p).1 + (dirRaw p).2 * (dirRaw p).2 ≠ 0)
    (hnc : ¬(p.moveUp = p.moveDown ∧ p.moveRight = p.moveLeft)) :
    magnitude (moveDirection p) ≤ 1 ∧
    ((p.moveUp = p.moveDown ∧ p.moveRight = p.moveLeft) →
      moveDirection p = (0, 0) ∧ magnitude (moveDirection p) = 0) ∧
    (¬(p.moveUp = p.moveDown ∧ p.moveRight = p.moveLeft) →
      magnitude (moveDirection p) = 1) ∧
    guardedLength p ≠ 0 := by
  obtain ⟨hm, hg⟩ := mag_one p h
  exact ⟨le_of_eq hm, fun hc => absurd hc hnc, fun _ => hm, hg⟩

/-- C5 (amended): the normalized direction always has magnitude ≤ 1 and the
guarded divisor is never zero (no NaN); the magnitude is exactly 1 unless
the flags cancel per axis (up = down and right = left), in which case the
direction is the zero vector.  (The original "unless all flags are false"
is refuted by the counterexample with right and left both held.) -/
theorem claim5_direction_normalization (p : PlayerState) :
    magnitude (moveDirection p) ≤ 1 ∧
    ((p.moveUp = p.moveDown ∧ p.moveRight = p.moveLeft) →
      moveDirection p = (0, 0) ∧ magnitude (moveDirection p) = 0) ∧
    (¬(p.moveUp = p.moveDown ∧ p.moveRight = p.moveLeft) →
      magnitude (moveDirection p) = 1) ∧
    guardedLength p ≠ 0 := by
  rcases p with ⟨u, r, d, l, sp, jf⟩
  cases u <;> cases r <;> cases d <;> cases l <;>
    first
      | exact claim5_case_zero _ (by norm_num [dirRaw]) (by norm_num [dirRaw])
          ⟨rfl, rfl⟩
      | exact claim5_case_one _ (by norm_num [dirRaw]) (by simp)

theorem claim5_witness :
    magnitude (moveDirection { moveUp := true }) = 1 ∧
    guardedLength { moveUp := true } ≠ 0 :=
  ⟨(claim5_direction_normalization { moveUp := true }).2.2.1 (by simp),
   (claim5_direction_normalization { moveUp := true }).2.2.2⟩

/-- C5 counterexample: with moveRight and moveLeft both true (and up/down
false) the flags are not all false, yet the computed direction has magnitude
0, not 1: opposing flags cancel before normalization. -/
theorem claim5_counterexample :
    ¬(({ moveRight := true, moveLeft := true } : PlayerState).moveUp = false ∧
      ({ moveRight := true, moveLeft := true } : PlayerState).moveRight = false ∧
      ({ moveRight := true, moveLeft := true } : PlayerState).moveDown = false ∧
      ({ moveRight := true, moveLeft := true } : PlayerState).moveLeft = false) ∧
    magnitude (moveDirection { moveRight := true, moveLeft := true }) = 0 ∧
    magnitude (moveDirection { moveRight := true, moveLeft := true }) ≠ 1 := by
  have h := mag_zero { moveRight := true, moveLeft := true }
    (by norm_num [dirRaw]) (by norm_num [dirRaw])
  exact ⟨by simp, h.2.1, by rw [h.2.1]; norm_num⟩

/-- C8: calling `move` while the owned physics handle is torn down is a
silent no-op (the thrown error is swallowed and no state changes), and a
call with a valid handle performs the normal velocity update. -/
theorem claim8_teardown_noop (p : PlayerState) :
    move p none = none ∧ ∀ b : Body, move p (some b) = some (moveBody p b) :=
  ⟨rfl, fun _ => rfl⟩

/-- C10: with moveUp and moveDown both true the y component of the direction
is 0, so the jump impulse is never applied even on ground contact; if
additionally moveRight = moveLeft the whole direction is the zero vector and
the horizontal velocity is set to 0. -/
theorem claim10_opposing_flags (p : PlayerState) (b : Body)
    (hu : p.moveUp = true) (hd : p.moveDown = true) :
    (moveDirection p).2 = 0 ∧ (moveBody p b).vy = b.vy ∧
    (p.moveRight = p.moveLeft →
      moveDirection p = (0, 0) ∧ (moveBody p b).vx = 0) := by
  have hy : (dirRaw p).2 = 0 := by simp [dirRaw, hu, hd]
  have hdir2 : (moveDirection p).2 = 0 := by
    unfold moveDirection
    simp [hy]
  have hvy : (moveBody p b).vy = b.vy := by
    unfold moveBody
    rw [if_neg (by rw [hdir2]; simp)]
  refine ⟨hdir2, hvy, ?_⟩
  intro hrl
  have hx : (dirRaw p).1 = 0 := by
    cases hr : p.moveRight <;> rw [hr] at hrl <;> simp [dirRaw, hr, ← hrl]
  have hgl1 : guardedLength p = 1 := by
    unfold guardedLength rawLength
    rw [hx, hy]
    norm_num [Real.sqrt_zero]
  have hdir : moveDirection p = (0, 0) := by
    unfold moveDirection
    rw [hx, hy, hgl1]
    norm_num
  refine ⟨hdir, ?_⟩
  unfold moveBody
  rw [if_neg (by rw [hdir2]; simp)]
  simp [hdir]

theorem claim10_witness :
    (moveDirection { moveUp := true, moveDown := true }).2 = 0 ∧
    (moveBody { moveUp := true, moveDown := true } { touchingDown := true }).vy =
      ({ touchingDown := true } : Body).vy ∧
    (({ moveUp := true, moveDown := true } : PlayerState).moveRight =
        ({ moveUp := true, moveDown := true } : PlayerState).moveLeft →
      moveDirection { moveUp := true, moveDown := true } = (0, 0) ∧
      (moveBody { moveUp := true, moveDown := true }
        { touchingDown := true }).vx = 0) :=
  claim10_opposing_flags _ _ rfl rfl

end Nsggp
